import Mathlib

/-!
Shallow embedding of `src/arithmetic/mod.rs` from the zkm repository:
the operator semantics (`BinaryOperator::result`, `TernaryOperator::result`),
the `Operation` model (`Operation::binary`, `Operation::ternary`,
`Operation::result`) and the row dispatcher (`Operation::to_rows`,
`binary_op_to_rows`, `ternary_op_to_rows`).

Machine integers are modelled as `Nat` with explicit reduction modulo `2^32`
where the Rust code wraps.  Rust's `overflowing_add/mul/sub(..).0` wrap
unconditionally, so the binary operators are total.  In
`TernaryOperator::result` the code uses the native `+`, `*`, `-` and `%`
operators: `%` by zero panics unconditionally in Rust, so the ternary result
is modelled as `Option Nat`, `none` standing for the panic; the inner
`+`, `*`, `-` are modelled with the wrapping (release-profile) semantics
that the repository is built with.
-/

namespace ZkmArith

/-- Reduction of a natural number to the 32-bit range, i.e. the value of a
Rust `u32` holding the wrapped result. -/
def wrap32 (n : Nat) : Nat := n % 2 ^ 32

/-- Rust `u32::overflowing_add(a, b).0`: wrapping 32-bit addition. -/
def wadd (a b : Nat) : Nat := wrap32 (a + b)

/-- Rust `u32::overflowing_mul(a, b).0`: wrapping 32-bit multiplication. -/
def wmul (a b : Nat) : Nat := wrap32 (a * b)

/-- Rust `u32::overflowing_sub(a, b).0`: wrapping 32-bit subtraction.
For `b ≤ 2^32` the natural number `a + 2^32 - b` agrees with the integer
`a - b + 2^32`, so this is two's-complement subtraction. -/
def wsub (a b : Nat) : Nat := wrap32 (a + 2 ^ 32 - b)

/-- The `BinaryOperator` enum of `src/arithmetic/mod.rs`. -/
inductive BinaryOperator where
  | Add
  | Mul
  | Sub
  | Div
  | Mod
  | Lt
  | Gt
  | Shl
  | Shr
deriving DecidableEq, Repr

/-- `BinaryOperator::result(input0, input1)`: wrapping Add/Mul/Sub, guarded
shifts (zero for shift amounts ≥ 32), guarded Div/Mod (zero for zero
divisor), and 0/1-valued comparisons. -/
def BinaryOperator.result : BinaryOperator → Nat → Nat → Nat
  | .Add, input0, input1 => wadd input0 input1
  | .Mul, input0, input1 => wmul input0 input1
  | .Shl, input0, input1 => if input0 < 32 then wrap32 (input1 <<< input0) else 0
  | .Sub, input0, input1 => wsub input0 input1
  | .Div, input0, input1 => if input1 = 0 then 0 else input0 / input1
  | .Shr, input0, input1 => if input0 < 32 then input1 >>> input0 else 0
  | .Mod, input0, input1 => if input1 = 0 then 0 else input0 % input1
  | .Lt, input0, input1 => if input0 < input1 then 1 else 0
  | .Gt, input0, input1 => if input0 > input1 then 1 else 0

/-- The `TernaryOperator` enum of `src/arithmetic/mod.rs`. -/
inductive TernaryOperator where
  | AddMod
  | MulMod
  | SubMod
deriving DecidableEq, Repr

/-- `TernaryOperator::result(input0, input1, input2)`: the native 32-bit
inner operation (wrapping) followed by `% input2`.  The Rust `%` operator
panics when `input2 == 0`; the panic is modelled as `none`. -/
def TernaryOperator.result : TernaryOperator → Nat → Nat → Nat → Option Nat
  | .AddMod, input0, input1, input2 =>
      if input2 = 0 then none else some (wadd input0 input1 % input2)
  | .MulMod, input0, input1, input2 =>
      if input2 = 0 then none else some (wmul input0 input1 % input2)
  | .SubMod, input0, input1, input2 =>
      if input2 = 0 then none else some (wsub input0 input1 % input2)

/-- The `Operation` enum of `src/arithmetic/mod.rs`: a binary or ternary
operator together with its operands and the stored `result` field. -/
inductive Operation where
  | BinaryOperation (operator : BinaryOperator) (input0 input1 result : Nat)
  | TernaryOperation (operator : TernaryOperator) (input0 input1 input2 result : Nat)
deriving DecidableEq, Repr

/-- `Operation::binary(operator, input0, input1)`: computes the operator's
result at construction time and stores it. -/
def Operation.binary (operator : BinaryOperator) (input0 input1 : Nat) : Operation :=
  Operation.BinaryOperation operator input0 input1 (operator.result input0 input1)

/-- `Operation::ternary(operator, input0, input1, input2)`: computes the
operator's result at construction time and stores it.  The construction
panics (`none`) exactly when the result computation does. -/
def Operation.ternary (operator : TernaryOperator) (input0 input1 input2 : Nat) :
    Option Operation :=
  (operator.result input0 input1 input2).map
    (fun r => Operation.TernaryOperation operator input0 input1 input2 r)

/-- `Operation::result()`: returns the embedded result field. -/
def Operation.result : Operation → Nat
  | .BinaryOperation _ _ _ result => result
  | .TernaryOperation _ _ _ _ result => result

/-- Modelled from the spec: the column-layout collaborator
(`src/arithmetic/columns.rs` is not part of the sources).  It supplies the
total row width `NUM_ARITH_COLUMNS` and one opaque selector-column index
per operator (`IS_ADD`, ..., `IS_SUBMOD`). -/
structure ColumnLayout where
  numCols : Nat
  isAdd : Nat
  isMul : Nat
  isSub : Nat
  isDiv : Nat
  isMod : Nat
  isLt : Nat
  isGt : Nat
  isShl : Nat
  isShr : Nat
  isAddMod : Nat
  isMulMod : Nat
  isSubMod : Nat
deriving DecidableEq, Repr

/-- `BinaryOperator::row_filter()`: the operator's selector-column index. -/
def ColumnLayout.rowFilterB (L : ColumnLayout) : BinaryOperator → Nat
  | .Add => L.isAdd
  | .Mul => L.isMul
  | .Sub => L.isSub
  | .Div => L.isDiv
  | .Mod => L.isMod
  | .Lt => L.isLt
  | .Gt => L.isGt
  | .Shl => L.isShl
  | .Shr => L.isShr

/-- `TernaryOperator::row_filter()`: the operator's selector-column index. -/
def ColumnLayout.rowFilterT (L : ColumnLayout) : TernaryOperator → Nat
  | .AddMod => L.isAddMod
  | .MulMod => L.isMulMod
  | .SubMod => L.isSubMod

/-- All selector-column indices of a layout. -/
def selectors (L : ColumnLayout) : List Nat :=
  [L.isAdd, L.isMul, L.isSub, L.isDiv, L.isMod, L.isLt, L.isGt, L.isShl,
   L.isShr, L.isAddMod, L.isMulMod, L.isSubMod]

/-- Modelled from the spec: the five external gadget collaborators
(`addcy::generate`, `mul::generate`, `shift::generate`, `divmod::generate`,
`modular::generate`; their modules are not part of the sources).  Each is a
function from the pre-allocated row buffer(s), the selector index or flag and
the native operands/result to the filled buffer(s), mirroring the in-place
mutation of the Rust code by explicit state passing. -/
structure Gadgets (F : Type) where
  addcy : List F → Nat → Nat → Nat → List F
  mul : List F → Nat → Nat → List F
  shift : List F → List F → Bool → Nat → Nat → Nat → List F × List F
  divmod : List F → List F → Nat → Nat → Nat → Nat → List F × List F
  modular : List F → List F → Nat → Nat → Nat → Nat → List F × List F

variable {F : Type} [Zero F] [One F]

/-- `ternary_op_to_rows(row_filter, input0, input1, input2, _result)`:
allocates two zero rows, sets the selector in the first row, delegates to
the modular gadget, and returns `(row1, Some row2)`.  The `_result`
parameter is unused, as in the source. -/
def ternary_op_to_rows (G : Gadgets F) (L : ColumnLayout)
    (row_filter input0 input1 input2 _result : Nat) : List F × Option (List F) :=
  let row1 : List F := List.replicate L.numCols 0
  let row2 : List F := List.replicate L.numCols 0
  let row1 := row1.set row_filter 1
  let p := G.modular row1 row2 row_filter input0 input1 input2
  (p.1, some p.2)

/-- `binary_op_to_rows(op, input0, input1, result)`: allocates a zero row,
sets the operator's selector, and routes to the operator's gadget;
Div/Mod/Shr produce a second row. -/
def binary_op_to_rows (G : Gadgets F) (L : ColumnLayout) (op : BinaryOperator)
    (input0 input1 result : Nat) : List F × Option (List F) :=
  let row : List F := (List.replicate L.numCols 0).set (L.rowFilterB op) 1
  match op with
  | .Add | .Sub | .Lt | .Gt =>
      (G.addcy row (L.rowFilterB op) input0 input1, none)
  | .Mul =>
      (G.mul row input0 input1, none)
  | .Shl =>
      let nv : List F := List.replicate L.numCols 0
      let p := G.shift row nv true input0 input1 result
      (p.1, none)
  | .Div | .Mod =>
      let nv : List F := List.replicate L.numCols 0
      let p := G.divmod row nv (L.rowFilterB op) input0 input1 result
      (p.1, some p.2)
  | .Shr =>
      let nv : List F := List.replicate L.numCols 0
      let p := G.shift row nv false input0 input1 result
      (p.1, some p.2)

/-- `Operation::to_rows()`: dispatches on the operation variant. -/
def Operation.to_rows (o : Operation) (G : Gadgets F) (L : ColumnLayout) :
    List F × Option (List F) :=
  match o with
  | .BinaryOperation operator input0 input1 result =>
      binary_op_to_rows G L operator input0 input1 result
  | .TernaryOperation operator input0 input1 input2 result =>
      ternary_op_to_rows G L (L.rowFilterT operator) input0 input1 input2 result

/-- The selector-column index of an operation's operator. -/
def Operation.rowFilter (L : ColumnLayout) : Operation → Nat
  | .BinaryOperation operator _ _ _ => L.rowFilterB operator
  | .TernaryOperation operator _ _ _ _ => L.rowFilterT operator

/-- The operators whose encoding spans two trace rows: Div, Mod, Shr and the
three ternary operators. -/
def Operation.isTwoRow : Operation → Bool
  | .BinaryOperation operator _ _ _ =>
      match operator with
      | .Div | .Mod | .Shr => true
      | _ => false
  | .TernaryOperation _ _ _ _ _ => true

/-- Modelled from the spec: validity of a column layout — the selector
indices are pairwise distinct and lie inside the row width. -/
def LayoutOk (L : ColumnLayout) : Prop :=
  (selectors L).Nodup ∧ ∀ s ∈ selectors L, s < L.numCols

/-- Modelled from the spec: the gadget contract relevant to the selector
columns — each gadget writes only into its operator-owned encoding columns,
so every selector column of the first row keeps the value the dispatcher
placed there. -/
structure GadgetSpec (G : Gadgets F) (L : ColumnLayout) : Prop where
  addcy_sel : ∀ row f i0 i1 s, s ∈ selectors L →
    (G.addcy row f i0 i1).getD s 0 = row.getD s 0
  mul_sel : ∀ row i0 i1 s, s ∈ selectors L →
    (G.mul row i0 i1).getD s 0 = row.getD s 0
  shift_sel : ∀ row nv lflag i0 i1 r s, s ∈ selectors L →
    ((G.shift row nv lflag i0 i1 r).1).getD s 0 = row.getD s 0
  divmod_sel : ∀ row nv f i0 i1 r s, s ∈ selectors L →
    ((G.divmod row nv f i0 i1 r).1).getD s 0 = row.getD s 0
  modular_sel : ∀ row nv f i0 i1 i2 s, s ∈ selectors L →
    ((G.modular row nv f i0 i1 i2).1).getD s 0 = row.getD s 0

/-- A concrete field instance for evaluation: the Goldilocks prime field
used by the repository's `PrimeField64` implementations. -/
abbrev Goldilocks : Nat := 18446744069414584321

/-- The Goldilocks field as `ZMod`. -/
abbrev Fg : Type := ZMod Goldilocks

/-- Gadgets that leave the rows unchanged: the simplest instance of the
spec's gadget contract, used to evaluate the dispatcher concretely. -/
def idGadgets (F : Type) : Gadgets F where
  addcy := fun row _ _ _ => row
  mul := fun row _ _ => row
  shift := fun row nv _ _ _ _ => (row, nv)
  divmod := fun row nv _ _ _ _ => (row, nv)
  modular := fun row nv _ _ _ _ => (row, nv)

/-- A concrete column layout with twelve distinct selector columns. -/
def layout0 : ColumnLayout :=
  ⟨12, 0, 1, 2, 3, 4, 5, 6, 7, 8, 9, 10, 11⟩

/-!  Lemmas and claim theorems. -/

/-- Reading the selector cell the dispatcher just set. -/
lemma getD_set_replicate_self (n i : Nat) (h : i < n) :
    (((List.replicate n (0 : F)).set i 1).getD i 0) = 1 := by
  rw [List.getD_eq_getElem?_getD, List.getElem?_set_self]
  · simp
  · simpa using h

/-- Reading any other cell of the freshly dispatched row. -/
lemma getD_set_replicate_ne (n i s : Nat) (h : s ≠ i) :
    (((List.replicate n (0 : F)).set i 1).getD s 0) = 0 := by
  rw [List.getD_eq_getElem?_getD, List.getElem?_set_ne (by omega)]
  by_cases hs : s < n
  · simp [List.getElem?_replicate, hs]
  · simp [List.getElem?_replicate, hs]

lemma layout0_ok : LayoutOk layout0 := by
  constructor
  · decide
  · decide

omit [One F] in
lemma idGadgets_spec (L : ColumnLayout) : GadgetSpec (idGadgets F) L := by
  constructor <;> intros <;> rfl

/-- C1 (amended): every `BinaryOperator::result` is total on 32-bit operands
and returns a 32-bit value with no panic; `TernaryOperator::result` is total
and returns a 32-bit value whenever `input2 ≠ 0`, and panics (returns no
value) exactly when `input2 = 0`. -/
theorem binary_total_ternary_total_unless_zero_modulus :
    (∀ (op : BinaryOperator) (a b : Nat), a < 2 ^ 32 → b < 2 ^ 32 →
      op.result a b < 2 ^ 32)
    ∧ (∀ (top : TernaryOperator) (a b c : Nat), c ≠ 0 →
      ∃ v, top.result a b c = some v ∧ v < 2 ^ 32)
    ∧ (∀ (top : TernaryOperator) (a b : Nat), top.result a b 0 = none) := by
  refine ⟨?_, ?_, ?_⟩
  · intro op a b ha hb
    cases op with
    | Add => exact Nat.mod_lt _ (by norm_num)
    | Mul => exact Nat.mod_lt _ (by norm_num)
    | Sub => exact Nat.mod_lt _ (by norm_num)
    | Div =>
        simp only [BinaryOperator.result]
        split
        · norm_num
        · exact Nat.lt_of_le_of_lt (Nat.div_le_self a b) ha
    | Mod =>
        simp only [BinaryOperator.result]
        split
        · norm_num
        · exact Nat.lt_of_le_of_lt (Nat.mod_le a b) ha
    | Lt =>
        simp only [BinaryOperator.result]
        split <;> norm_num
    | Gt =>
        simp only [BinaryOperator.result]
        split <;> norm_num
    | Shl =>
        simp only [BinaryOperator.result]
        split
        · exact Nat.mod_lt _ (by norm_num)
        · norm_num
    | Shr =>
        simp only [BinaryOperator.result]
        split
        · refine Nat.lt_of_le_of_lt ?_ hb
          rw [Nat.shiftRight_eq_div_pow]
          exact Nat.div_le_self _ _
        · norm_num
  · intro top a b c hc
    cases top with
    | AddMod =>
        refine ⟨wadd a b % c, by simp [TernaryOperator.result, hc], ?_⟩
        refine Nat.lt_of_le_of_lt (Nat.mod_le _ c) ?_
        simp only [wadd, wrap32]
        omega
    | MulMod =>
        refine ⟨wmul a b % c, by simp [TernaryOperator.result, hc], ?_⟩
        refine Nat.lt_of_le_of_lt (Nat.mod_le _ c) ?_
        simp only [wmul, wrap32]
        exact Nat.mod_lt _ (by norm_num)
    | SubMod =>
        refine ⟨wsub a b % c, by simp [TernaryOperator.result, hc], ?_⟩
        refine Nat.lt_of_le_of_lt (Nat.mod_le _ c) ?_
        simp only [wsub, wrap32]
        omega
  · intro top a b
    cases top <;> simp [TernaryOperator.result]

/-- Witness for C1 at concrete inputs. -/
theorem binary_total_ternary_total_unless_zero_modulus_concrete :
    BinaryOperator.result .Add 5 7 < 2 ^ 32
    ∧ (∃ v, TernaryOperator.result .AddMod 10 20 7 = some v ∧ v < 2 ^ 32)
    ∧ TernaryOperator.result .MulMod 1 2 0 = none :=
  ⟨binary_total_ternary_total_unless_zero_modulus.1 .Add 5 7 (by norm_num)
      (by norm_num),
   binary_total_ternary_total_unless_zero_modulus.2.1 .AddMod 10 20 7
      (by norm_num),
   binary_total_ternary_total_unless_zero_modulus.2.2 .MulMod 1 2⟩

/-- C1 counterexample to the claim as stated: at `input2 = 0` the ternary
result computation yields no value (Rust `%` by zero panics). -/
theorem addmod_zero_modulus_no_value :
    TernaryOperator.result .AddMod 0 0 0 = none := rfl

/-- C2 (amended): for `input2 ≠ 0`, `TernaryOperator::result` is the
native wrapping 32-bit inner operation followed by reduction `% input2`;
SubMod wraps two's-complement style when `input1 > input0`.  At
`input2 = 0` the computation panics instead of yielding a value. -/
theorem ternary_result_wrap_then_reduce (a b c : Nat) (ha : a < 2 ^ 32)
    (hb : b < 2 ^ 32) (hc : c ≠ 0) :
    TernaryOperator.result .AddMod a b c = some ((a + b) % 2 ^ 32 % c)
    ∧ TernaryOperator.result .MulMod a b c = some (a * b % 2 ^ 32 % c)
    ∧ TernaryOperator.result .SubMod a b c
        = some ((((a : Int) - b) % 2 ^ 32).toNat % c) := by
  refine ⟨by simp [TernaryOperator.result, hc, wadd, wrap32],
    by simp [TernaryOperator.result, hc, wmul, wrap32], ?_⟩
  have harg : wsub a b % c = (((a : Int) - b) % 2 ^ 32).toNat % c := by
    simp only [wsub, wrap32]
    congr 1
    omega
  simp [TernaryOperator.result, hc, harg]

/-- Witness for C2 at concrete inputs. -/
theorem ternary_result_wrap_then_reduce_concrete :
    TernaryOperator.result .AddMod 10 20 7 = some ((10 + 20) % 2 ^ 32 % 7)
    ∧ TernaryOperator.result .MulMod 10 20 7 = some (10 * 20 % 2 ^ 32 % 7)
    ∧ TernaryOperator.result .SubMod 10 20 7
        = some ((((10 : Int) - 20) % 2 ^ 32).toNat % 7) :=
  ternary_result_wrap_then_reduce 10 20 7 (by norm_num) (by norm_num)
    (by norm_num)

/-- C2 counterexample to the claim as stated: at `input2 = 0` no value is
yielded at all. -/
theorem addmod_one_two_zero_no_value :
    TernaryOperator.result .AddMod 1 2 0 = none := rfl

/-- C3: Div and Mod return 0 on a zero divisor and the truncated quotient
and remainder otherwise; no error in any case. -/
theorem div_mod_zero_divisor_policy (a b : Nat) :
    (b = 0 → BinaryOperator.result .Div a b = 0
      ∧ BinaryOperator.result .Mod a b = 0)
    ∧ (b ≠ 0 → BinaryOperator.result .Div a b = a / b
      ∧ BinaryOperator.result .Mod a b = a % b) := by
  constructor <;> intro h <;> simp [BinaryOperator.result, h]

/-- Witness for C3 at concrete inputs. -/
theorem div_mod_zero_divisor_policy_concrete :
    (BinaryOperator.result .Div 10 0 = 0 ∧ BinaryOperator.result .Mod 10 0 = 0)
    ∧ (BinaryOperator.result .Div 10 3 = 10 / 3
      ∧ BinaryOperator.result .Mod 10 3 = 10 % 3) :=
  ⟨(div_mod_zero_divisor_policy 10 0).1 rfl,
   (div_mod_zero_divisor_policy 10 3).2 (by norm_num)⟩

/-- C4: Shl and Shr shift `input1` by `input0` places when the shift amount
`input0` is below 32, and return 0 for shift amounts of 32 or more. -/
theorem shift_semantics (a b : Nat) (_hb : b < 2 ^ 32) :
    (a < 32 → BinaryOperator.result .Shl a b = (b <<< a) % 2 ^ 32
      ∧ BinaryOperator.result .Shr a b = b >>> a)
    ∧ (32 ≤ a → BinaryOperator.result .Shl a b = 0
      ∧ BinaryOperator.result .Shr a b = 0) := by
  constructor <;> intro h
  · simp [BinaryOperator.result, h, wrap32]
  · simp [BinaryOperator.result, Nat.not_lt.mpr h]

/-- Witness for C4 at concrete inputs. -/
theorem shift_semantics_concrete :
    (BinaryOperator.result .Shl 3 5 = (5 <<< 3) % 2 ^ 32
      ∧ BinaryOperator.result .Shr 3 5 = 5 >>> 3)
    ∧ (BinaryOperator.result .Shl 32 5 = 0
      ∧ BinaryOperator.result .Shr 32 5 = 0) :=
  ⟨(shift_semantics 3 5 (by norm_num)).1 (by norm_num),
   (shift_semantics 32 5 (by norm_num)).2 (by norm_num)⟩

/-- C5: Add, Mul and Sub wrap silently modulo `2^32`; Sub is
two's-complement subtraction. -/
theorem add_mul_sub_wraparound (a b : Nat) (ha : a < 2 ^ 32)
    (hb : b < 2 ^ 32) :
    BinaryOperator.result .Add a b = (a + b) % 2 ^ 32
    ∧ BinaryOperator.result .Mul a b = a * b % 2 ^ 32
    ∧ ((BinaryOperator.result .Sub a b : Nat) : Int)
        = ((a : Int) - b) % 2 ^ 32 := by
  refine ⟨rfl, rfl, ?_⟩
  simp only [BinaryOperator.result, wsub, wrap32]
  omega

/-- Witness for C5 at concrete inputs. -/
theorem add_mul_sub_wraparound_concrete :
    BinaryOperator.result .Add 5 7 = (5 + 7) % 2 ^ 32
    ∧ BinaryOperator.result .Mul 5 7 = 5 * 7 % 2 ^ 32
    ∧ ((BinaryOperator.result .Sub 5 7 : Nat) : Int)
        = ((5 : Int) - 7) % 2 ^ 32 :=
  add_mul_sub_wraparound 5 7 (by norm_num) (by norm_num)

/-- C9: Lt and Gt are 0/1-valued; exactly one of them is 1 when the
operands differ, and both are 0 when the operands are equal. -/
theorem lt_gt_boolean_trichotomy (a b : Nat) :
    (BinaryOperator.result .Lt a b = 0 ∨ BinaryOperator.result .Lt a b = 1)
    ∧ (BinaryOperator.result .Gt a b = 0 ∨ BinaryOperator.result .Gt a b = 1)
    ∧ (a ≠ b →
        (BinaryOperator.result .Lt a b = 1 ∧ BinaryOperator.result .Gt a b = 0)
        ∨ (BinaryOperator.result .Lt a b = 0
          ∧ BinaryOperator.result .Gt a b = 1))
    ∧ (a = b → BinaryOperator.result .Lt a b = 0
        ∧ BinaryOperator.result .Gt a b = 0) := by
  simp only [BinaryOperator.result, gt_iff_lt]
  refine ⟨?_, ?_, ?_, ?_⟩
  · split <;> simp
  · split <;> simp
  · intro h
    rcases Nat.lt_trichotomy a b with hlt | heq | hgt
    · left
      simp [hlt, Nat.lt_asymm hlt]
    · exact absurd heq h
    · right
      simp [hgt, Nat.lt_asymm hgt]
  · intro h
    subst h
    simp

/-- Witness for C9 at concrete inputs. -/
theorem lt_gt_boolean_trichotomy_concrete :
    ((BinaryOperator.result .Lt 2 3 = 1 ∧ BinaryOperator.result .Gt 2 3 = 0)
      ∨ (BinaryOperator.result .Lt 2 3 = 0
        ∧ BinaryOperator.result .Gt 2 3 = 1))
    ∧ (BinaryOperator.result .Lt 2 2 = 0
      ∧ BinaryOperator.result .Gt 2 2 = 0) :=
  ⟨(lt_gt_boolean_trichotomy 2 3).2.2.1 (by norm_num),
   (lt_gt_boolean_trichotomy 2 2).2.2.2 rfl⟩

/-- C6: `to_rows` returns `Some` as the second component exactly for the
two-row operators Div, Mod, Shr, AddMod, MulMod, SubMod, and `None` for
Add, Mul, Sub, Lt, Gt, Shl — for any gadgets and any layout. -/
theorem to_rows_snd_isSome_iff_two_row (G : Gadgets F) (L : ColumnLayout)
    (o : Operation) :
    ((o.to_rows G L).2).isSome = o.isTwoRow := by
  cases o with
  | BinaryOperation operator i0 i1 r => cases operator <;> rfl
  | TernaryOperation operator i0 i1 i2 r => rfl

/-- C8: `Operation::binary` and `Operation::ternary` embed exactly the
operator's result at construction time and `Operation::result()` returns
it; in particular `binary(Add, 5, 7)` has result 12 and
`ternary(AddMod, 10, 20, 7)` has result 2. -/
theorem construction_embeds_result :
    (∀ (bop : BinaryOperator) (a b : Nat),
      (Operation.binary bop a b).result = bop.result a b)
    ∧ (∀ (top : TernaryOperator) (a b c : Nat) (o : Operation),
      Operation.ternary top a b c = some o →
        some o.result = top.result a b c)
    ∧ (Operation.binary .Add 5 7).result = 12
    ∧ (∃ o, Operation.ternary .AddMod 10 20 7 = some o ∧ o.result = 2) := by
  refine ⟨fun bop a b => rfl, ?_, by decide, ?_⟩
  · intro top a b c o ho
    unfold Operation.ternary at ho
    cases hr : top.result a b c with
    | none => rw [hr] at ho; simp at ho
    | some v =>
        rw [hr] at ho
        simp only [Option.map, Option.some.injEq] at ho
        rw [← ho]
        rfl
  · exact ⟨Operation.TernaryOperation .AddMod 10 20 7 2, by decide, rfl⟩

/-- Witness for C8 at a concrete input. -/
theorem construction_embeds_result_concrete :
    some ((Operation.TernaryOperation .AddMod 10 20 7 2).result)
      = TernaryOperator.result .AddMod 10 20 7 :=
  construction_embeds_result.2.1 .AddMod 10 20 7
    (Operation.TernaryOperation .AddMod 10 20 7 2) (by decide)

/-- C10: the ternary row-encoding path ignores the stored result field:
two ternary operations agreeing on operator and inputs but with arbitrary
stored results produce identical row pairs. -/
theorem ternary_to_rows_ignores_stored_result (G : Gadgets F)
    (L : ColumnLayout) (top : TernaryOperator) (i0 i1 i2 r r2 : Nat) :
    (Operation.TernaryOperation top i0 i1 i2 r).to_rows G L
      = (Operation.TernaryOperation top i0 i1 i2 r2).to_rows G L := rfl

/-- The first row of `to_rows` agrees, on every selector column, with the
zero row in which the dispatcher set the operator's selector: the gadget
contract keeps selector columns untouched. -/
lemma to_rows_fst_selector_agrees (G : Gadgets F) (L : ColumnLayout)
    (hG : GadgetSpec G L) (o : Operation) (s : Nat) (hs : s ∈ selectors L) :
    ((o.to_rows G L).1).getD s 0
      = (((List.replicate L.numCols (0 : F)).set (o.rowFilter L) 1)).getD s 0 := by
  cases o with
  | BinaryOperation operator i0 i1 r =>
      cases operator with
      | Add => exact hG.addcy_sel _ _ _ _ _ hs
      | Sub => exact hG.addcy_sel _ _ _ _ _ hs
      | Lt => exact hG.addcy_sel _ _ _ _ _ hs
      | Gt => exact hG.addcy_sel _ _ _ _ _ hs
      | Mul => exact hG.mul_sel _ _ _ _ hs
      | Shl => exact hG.shift_sel _ _ _ _ _ _ _ hs
      | Shr => exact hG.shift_sel _ _ _ _ _ _ _ hs
      | Div => exact hG.divmod_sel _ _ _ _ _ _ _ hs
      | Mod => exact hG.divmod_sel _ _ _ _ _ _ _ hs
  | TernaryOperation operator i0 i1 i2 r =>
      exact hG.modular_sel _ _ _ _ _ _ _ hs

/-- The selector index of any operation is one of the layout's selectors. -/
lemma rowFilter_mem_selectors (L : ColumnLayout) (o : Operation) :
    o.rowFilter L ∈ selectors L := by
  cases o with
  | BinaryOperation operator i0 i1 r =>
      cases operator <;>
        simp [Operation.rowFilter, ColumnLayout.rowFilterB, selectors]
  | TernaryOperation operator i0 i1 i2 r =>
      cases operator <;>
        simp [Operation.rowFilter, ColumnLayout.rowFilterT, selectors]

/-- C7: for a valid layout and spec-conforming gadgets, the first row of
`to_rows` holds the field's multiplicative identity in the operator's
selector column and field zero in every other selector column. -/
theorem to_rows_unique_selector (G : Gadgets F) (L : ColumnLayout)
    (hL : LayoutOk L) (hG : GadgetSpec G L) (o : Operation) :
    ((o.to_rows G L).1).getD (o.rowFilter L) 0 = 1
    ∧ ∀ s ∈ selectors L, s ≠ o.rowFilter L →
        ((o.to_rows G L).1).getD s 0 = 0 := by
  constructor
  · rw [to_rows_fst_selector_agrees G L hG o _ (rowFilter_mem_selectors L o)]
    exact getD_set_replicate_self _ _ (hL.2 _ (rowFilter_mem_selectors L o))
  · intro s hs hne
    rw [to_rows_fst_selector_agrees G L hG o s hs]
    exact getD_set_replicate_ne _ _ _ hne

/-- Witness for C7 at a concrete operation, layout and gadget instance. -/
theorem to_rows_unique_selector_concrete :
    (((Operation.BinaryOperation .Add 5 7 12).to_rows (idGadgets Fg)
        layout0).1).getD
      ((Operation.BinaryOperation .Add 5 7 12).rowFilter layout0) 0 = 1
    ∧ (((Operation.BinaryOperation .Add 5 7 12).to_rows (idGadgets Fg)
        layout0).1).getD 3 0 = 0 :=
  ⟨(to_rows_unique_selector (idGadgets Fg) layout0 layout0_ok
      (idGadgets_spec layout0) (Operation.BinaryOperation .Add 5 7 12)).1,
   (to_rows_unique_selector (idGadgets Fg) layout0 layout0_ok
      (idGadgets_spec layout0) (Operation.BinaryOperation .Add 5 7 12)).2
      3 (by simp [selectors, layout0]) (by simp [Operation.rowFilter,
        ColumnLayout.rowFilterB, layout0])⟩

end ZkmArith
